import Mathlib

/-
Verification development for the sales-analytics dashboard in src/app.py.
The pandas DataFrame is embedded as a list of rows together with a record of
which columns the frame has; money amounts and quantities are integers
(the pandas float values, say in cents), and the average ticket is their
exact rational quotient; a date is a day number, with pandas NaT embedded as
none.  Pandas raises KeyError when code accesses an absent column, so the
operations that access columns without a membership guard return Except.
-/

deriving instance DecidableEq for Except

/-- Failure of a pandas column access on a column absent from the DataFrame
(a Python KeyError). -/
inductive Err where
  | missingColumn
deriving DecidableEq

/-- One order line item as produced by load_data (src/app.py lines 57-97).
load_data fills the categorical columns nome_produto, categoria, uf, sexo and
faixa_etaria with the default "Unknown" and the numeric columns with 0, so
those fields are total; nome_completo has no fillna default and may be NaN
(none), and data_pedido may be NaT (none). -/
structure Row where
  id_pedido : String
  id_cliente : String
  nome_completo : Option String
  nome_produto : String
  categoria : String
  uf : String
  sexo : String
  faixa_etaria : String
  data_pedido : Option Int
  quantidade : ℤ
  preco_parcial : ℤ
deriving DecidableEq

/-- Which columns the loaded DataFrame has.  main guards most column accesses
with membership tests, so the embedding keeps the presence of each relevant
column explicit. -/
structure Cols where
  data_pedido : Bool
  nome_produto : Bool
  categoria : Bool
  uf : Bool
  sexo : Bool
  preco_parcial : Bool
  quantidade : Bool
  id_pedido : Bool
  id_cliente : Bool
  nome_completo : Bool
  faixa_etaria : Bool
deriving DecidableEq

/-- A DataFrame: the set of columns it carries plus its rows in order. -/
structure Table where
  cols : Cols
  rows : List Row
deriving DecidableEq

/-- A Cols value with every relevant column present. -/
def allCols : Cols :=
  ⟨true, true, true, true, true, true, true, true, true, true, true⟩

/-- The sidebar filter state of main (src/app.py lines 192-245): an optional
inclusive date range, four categorical selections where the literal string
"All" is the no-constraint sentinel, and the minimum-revenue threshold. -/
structure FilterOptions where
  dateRange : Option (Int × Int)
  product : String
  category : String
  state : String
  gender : String
  min_revenue : ℤ
deriving DecidableEq

/-- The date-range predicate of src/app.py lines 206-208: with an active range
a row is kept when its order date is within [start, end]; a NaT date compares
false against both bounds and is dropped. -/
def datePred (o : FilterOptions) (r : Row) : Bool :=
  match o.dateRange with
  | none => true
  | some se =>
      match r.data_pedido with
      | none => false
      | some d => decide (se.1 ≤ d) && decide (d ≤ se.2)

/-- The guard of src/app.py line 195: the date filter only runs when the
data_pedido column exists, it has at least one non-null value, and a two-sided
range was picked. -/
def dateGuard (t : Table) (o : FilterOptions) : Bool :=
  t.cols.data_pedido && t.rows.any (fun r => r.data_pedido.isSome) && o.dateRange.isSome

/-- One guarded filtering step of main: boolean-mask the rows when the guard
holds, otherwise leave them unchanged. -/
def stage (c : Bool) (p : Row → Bool) (l : List Row) : List Row :=
  if c then l.filter p else l

/-- The sidebar filter pipeline of main (src/app.py lines 195-245): date
range, then the four guarded categorical equality filters, then the
minimum-revenue mask, which reads df[preco_parcial] with no membership guard
and therefore raises KeyError when that column is absent. -/
def apply_filters (t : Table) (o : FilterOptions) : Except Err Table :=
  let r1 := stage (dateGuard t o) (datePred o) t.rows
  let r2 := stage (t.cols.nome_produto && !(o.product == "All"))
      (fun r => r.nome_produto == o.product) r1
  let r3 := stage (t.cols.categoria && !(o.category == "All"))
      (fun r => r.categoria == o.category) r2
  let r4 := stage (t.cols.uf && !(o.state == "All"))
      (fun r => r.uf == o.state) r3
  let r5 := stage (t.cols.sexo && !(o.gender == "All"))
      (fun r => r.sexo == o.gender) r4
  if t.cols.preco_parcial then
    Except.ok ⟨t.cols, r5.filter (fun r => decide (o.min_revenue ≤ r.preco_parcial))⟩
  else
    Except.error Err.missingColumn

/-- The row predicate that the whole pipeline of apply_filters amounts to:
the conjunction of the active filters, each neutral when its guard is off. -/
def keepRow (t : Table) (o : FilterOptions) (r : Row) : Bool :=
  (!dateGuard t o || datePred o r)
  && (!(t.cols.nome_produto && !(o.product == "All")) || r.nome_produto == o.product)
  && (!(t.cols.categoria && !(o.category == "All")) || r.categoria == o.category)
  && (!(t.cols.uf && !(o.state == "All")) || r.uf == o.state)
  && (!(t.cols.sexo && !(o.gender == "All")) || r.sexo == o.gender)
  && decide (o.min_revenue ≤ r.preco_parcial)

/-- The KPI Set of calculate_kpis. -/
structure KPI where
  total_revenue : ℤ
  total_orders : Nat
  unique_customers : Nat
  total_quantity : ℤ
  avg_ticket : ℚ
deriving DecidableEq

/-- calculate_kpis (src/app.py lines 102-118): column sums, pandas nunique
(the number of distinct values, embedded as the length of dedup), and the
guarded average ticket. -/
def calculate_kpis (rows : List Row) : KPI :=
  let total_revenue : ℤ := (rows.map (fun r => r.preco_parcial)).sum
  let total_orders := (rows.map (fun r => r.id_pedido)).dedup.length
  let unique_customers := (rows.map (fun r => r.id_cliente)).dedup.length
  let total_quantity := (rows.map (fun r => r.quantidade)).sum
  let avg_ticket : ℚ :=
    if 0 < total_orders then (total_revenue : ℚ) / (total_orders : ℚ) else 0
  ⟨total_revenue, total_orders, unique_customers, total_quantity, avg_ticket⟩

/-- calculate_kpis with the pandas column accesses made explicit: KeyError
when one of the four columns it reads is absent. -/
def calculate_kpisE (t : Table) : Except Err KPI :=
  if t.cols.preco_parcial && t.cols.id_pedido && t.cols.id_cliente && t.cols.quantidade then
    Except.ok (calculate_kpis t.rows)
  else
    Except.error Err.missingColumn

/-- Sum of a measure over the rows of one group: the rows whose group key is
exactly the (non-null) key k.  Pandas groupby puts a row in no group at all
when its key is NaN, which is why the key function is Option-valued. -/
def groupValue {κ : Type} [DecidableEq κ] (key : Row → Option κ) (measure : Row → ℤ)
    (rows : List Row) (k : κ) : ℤ :=
  ((rows.filter (fun r => decide (key r = some k))).map measure).sum

/-- The distinct non-null group keys of the view, in ascending order: pandas
groupby (with its default sort=True) returns groups sorted by key. -/
def sortedKeys {κ : Type} [LinearOrder κ] [DecidableEq κ] (key : Row → Option κ)
    (rows : List Row) : List κ :=
  List.insertionSort (· ≤ ·) ((rows.filterMap key).dedup)

/-- df.groupby(dim)[measure].sum(): one (key, summed measure) pair per
distinct non-null key, keys ascending. -/
def groupSums {κ : Type} [LinearOrder κ] [DecidableEq κ] (key : Row → Option κ)
    (measure : Row → ℤ) (rows : List Row) : List (κ × ℤ) :=
  (sortedKeys key rows).map (fun k => (k, groupValue key measure rows k))

/-- Stable descending insertion by the second (measure) component: the new
pair goes in front of the first pair whose value it reaches, so among equal
values earlier input pairs stay first. -/
def insertDesc {κ : Type} (p : κ × ℤ) : List (κ × ℤ) → List (κ × ℤ)
  | [] => [p]
  | q :: qs => if q.2 ≤ p.2 then p :: q :: qs else q :: insertDesc p qs

/-- Embedding of sort_values(ascending=False) applied to a groupby result.
The pandas default sort kind is numpy quicksort, which is documented as not
stable, so the program fixes no particular order among groups with equal
values; the embedding must pick one deterministic refinement and uses an
insertion sort (what numpy itself runs on arrays of at most 16 elements).
Claim theorems rely only on the descending order of the values, which every
sort kind guarantees, except at two-group concrete inputs, where numpy
provably behaves like this definition. -/
def sortValsDesc {κ : Type} : List (κ × ℤ) → List (κ × ℤ)
  | [] => []
  | p :: ps => insertDesc p (sortValsDesc ps)

/-- df.groupby(dim)[measure].sum().sort_values(ascending=False), the
group-and-rank step shared by calculate_insights and the chart queries. -/
def aggregate {κ : Type} [LinearOrder κ] [DecidableEq κ] (key : Row → Option κ)
    (measure : Row → ℤ) (rows : List Row) : List (κ × ℤ) :=
  sortValsDesc (groupSums key measure rows)

/-- The head(n) truncation used by the top-10 chart queries
(src/app.py lines 344 and 362). -/
def top_n {κ : Type} [LinearOrder κ] [DecidableEq κ] (n : Nat) (key : Row → Option κ)
    (measure : Row → ℤ) (rows : List Row) : List (κ × ℤ) :=
  (aggregate key measure rows).take n

/-- The aggregation entry point with the pandas column access made explicit:
df.groupby raises KeyError when the dimension (or selected measure) column is
absent, rather than returning an empty frame. -/
def aggregateE {κ : Type} [LinearOrder κ] [DecidableEq κ] (present : Bool)
    (key : Row → Option κ) (measure : Row → ℤ) (rows : List Row) :
    Except Err (List (κ × ℤ)) :=
  if present then Except.ok (aggregate key measure rows) else Except.error Err.missingColumn

/-- Group key of the best-selling-product insight.  Keys are char lists
because the embedding orders them; nome_produto is never null after
load_data's fillna. -/
def prodKey (r : Row) : Option (List Char) := some r.nome_produto.data

/-- Group key of the most-profitable-category insight. -/
def catKey (r : Row) : Option (List Char) := some r.categoria.data

/-- Group key of the highest-revenue-state insight. -/
def ufKey (r : Row) : Option (List Char) := some r.uf.data

/-- Group key of the highest-spending-age-group insight. -/
def ageKey (r : Row) : Option (List Char) := some r.faixa_etaria.data

/-- Group key of the top-customer insight: the (id_cliente, nome_completo)
pair under the lexicographic order of a pandas MultiIndex.  nome_completo has
no fillna default, so the key is null (and pandas drops the row from the
grouping) whenever the name is missing. -/
def custKey (r : Row) : Option (List Char ×ₗ List Char) :=
  r.nome_completo.map (fun n => toLex (r.id_cliente.data, n.data))

/-- The Insight Set of calculate_insights. -/
structure Insights where
  best_selling_product : String
  best_selling_quantity : ℤ
  most_profitable_category : String
  category_revenue : ℤ
  highest_revenue_state : String
  state_revenue : ℤ
  highest_spending_age : String
  age_revenue : ℤ
  top_customer_name : String
  top_customer_spend : ℤ
deriving DecidableEq

/-- First entry of the ranked aggregation, the series.index[0] / .iloc[0]
selection of calculate_insights. -/
def topAgg {κ : Type} [LinearOrder κ] [DecidableEq κ] (key : Row → Option κ)
    (measure : Row → ℤ) (rows : List Row) : Option (κ × ℤ) :=
  (aggregate key measure rows).head?

/-- calculate_insights (src/app.py lines 123-159): five group-by rankings,
each falling back to "N/A" and 0 when no groups exist; the top customer is
displayed by the name component of its (id, name) key. -/
def calculate_insights (rows : List Row) : Insights :=
  let pq := topAgg prodKey (fun r => r.quantidade) rows
  let cr := topAgg catKey (fun r => r.preco_parcial) rows
  let sr := topAgg ufKey (fun r => r.preco_parcial) rows
  let ar := topAgg ageKey (fun r => r.preco_parcial) rows
  let cs := topAgg custKey (fun r => r.preco_parcial) rows
  { best_selling_product := (pq.map (fun p => String.mk p.1)).getD "N/A"
    best_selling_quantity := (pq.map Prod.snd).getD 0
    most_profitable_category := (cr.map (fun p => String.mk p.1)).getD "N/A"
    category_revenue := (cr.map Prod.snd).getD 0
    highest_revenue_state := (sr.map (fun p => String.mk p.1)).getD "N/A"
    state_revenue := (sr.map Prod.snd).getD 0
    highest_spending_age := (ar.map (fun p => String.mk p.1)).getD "N/A"
    age_revenue := (ar.map Prod.snd).getD 0
    top_customer_name := (cs.map (fun p => String.mk (ofLex p.1).2)).getD "N/A"
    top_customer_spend := (cs.map Prod.snd).getD 0 }

/-- The columns calculate_insights reads: the five group dimensions and the
two measure columns. -/
def requiredInsightCols (c : Cols) : Bool :=
  c.nome_produto && c.quantidade && c.categoria && c.preco_parcial
    && c.uf && c.faixa_etaria && c.id_cliente && c.nome_completo

/-- calculate_insights with the pandas column accesses made explicit: its
first groupby over an absent column raises KeyError. -/
def calculate_insightsE (t : Table) : Except Err Insights :=
  if requiredInsightCols t.cols then Except.ok (calculate_insights t.rows)
  else Except.error Err.missingColumn

/-- The row predicate stated by the specification for the filter pipeline:
identical to keepRow except that the date clause is skipped only when the
data_pedido column is entirely absent, not merely all-null.  Kept separate so
the pipeline can be compared against the specification's words. -/
def claimedKeep (t : Table) (o : FilterOptions) (r : Row) : Bool :=
  (match o.dateRange with
   | none => true
   | some se =>
       if t.cols.data_pedido then
         match r.data_pedido with
         | none => false
         | some d => decide (se.1 ≤ d) && decide (d ≤ se.2)
       else true)
  && (!(t.cols.nome_produto && !(o.product == "All")) || r.nome_produto == o.product)
  && (!(t.cols.categoria && !(o.category == "All")) || r.categoria == o.category)
  && (!(t.cols.uf && !(o.state == "All")) || r.uf == o.state)
  && (!(t.cols.sexo && !(o.gender == "All")) || r.sexo == o.gender)
  && decide (o.min_revenue ≤ r.preco_parcial)

/-- The tie-break rule stated by the specification for ranked aggregations:
among the groups attaining the maximal measure, the first group key
encountered in the view's row order.  Kept separate so the engine's actual
tie-break can be compared against the specification's words. -/
def firstSeenMaxKey {κ : Type} [DecidableEq κ] (key : Row → Option κ) (measure : Row → ℤ)
    (rows : List Row) : Option κ :=
  let ks := (rows.filterMap key).dedup
  ks.find? (fun k =>
    ks.all (fun j => decide (groupValue key measure rows j ≤ groupValue key measure rows k)))

/-- One insight satisfies its argmax contract on a view: some group of the
dimension's aggregation is selected (sel names the Insight Set fields it
fills), its key occurs in the view, and its measure is the maximum over all
groups. -/
def AttainsMax {κ : Type} [LinearOrder κ] [DecidableEq κ] (key : Row → Option κ)
    (measure : Row → ℤ) (rows : List Row) (sel : κ × ℤ → Prop) : Prop :=
  ∃ p ∈ groupSums key measure rows, sel p ∧ (∃ r ∈ rows, key r = some p.1) ∧
    ∀ q ∈ groupSums key measure rows, q.2 ≤ p.2

/-- The argmax contract of the four single-column insights over a view:
best-selling product, most profitable category, highest-revenue state and
highest-spending age group each select a group of their dimension that
attains the maximal aggregated measure.  These four dimensions are
fillna-backed, so their group keys are never null. -/
def CoreInsightsAttainMax (rows : List Row) : Prop :=
  AttainsMax prodKey (fun r => r.quantidade) rows
    (fun p => (calculate_insights rows).best_selling_product = String.mk p.1 ∧
      (calculate_insights rows).best_selling_quantity = p.2) ∧
  AttainsMax catKey (fun r => r.preco_parcial) rows
    (fun p => (calculate_insights rows).most_profitable_category = String.mk p.1 ∧
      (calculate_insights rows).category_revenue = p.2) ∧
  AttainsMax ufKey (fun r => r.preco_parcial) rows
    (fun p => (calculate_insights rows).highest_revenue_state = String.mk p.1 ∧
      (calculate_insights rows).state_revenue = p.2) ∧
  AttainsMax ageKey (fun r => r.preco_parcial) rows
    (fun p => (calculate_insights rows).highest_spending_age = String.mk p.1 ∧
      (calculate_insights rows).age_revenue = p.2)

/-- The argmax contract of the top-customer insight over a view: it selects
a (customer id, customer name) group attaining the maximal summed spend. -/
def CustomerAttainsMax (rows : List Row) : Prop :=
  AttainsMax custKey (fun r => r.preco_parcial) rows
    (fun p => (calculate_insights rows).top_customer_name = String.mk (ofLex p.1).2 ∧
      (calculate_insights rows).top_customer_spend = p.2)

/-- Concrete line item used by witnesses. -/
def demoRow : Row :=
  ⟨"o1", "c1", some "Ana", "Widget", "Toys", "SP", "F", "18-25", some 5, 2, 10⟩

/-- Concrete line item whose customer name is missing (NaN in the source
data, which load_data leaves in place). -/
def rowNoName : Row :=
  ⟨"o2", "c2", none, "Gadget", "Toys", "RJ", "M", "26-35", some 6, 1, 7⟩

/-- Concrete line item whose order date is missing (NaT). -/
def noDateRow : Row :=
  ⟨"o9", "c9", some "Zed", "W", "T", "SP", "F", "18-25", none, 1, 5⟩

/-- First row of the tie counterexample: product B, quantity 5. -/
def rowB : Row :=
  ⟨"o3", "c3", some "Bea", "B", "Toys", "SP", "F", "18-25", some 7, 5, 3⟩

/-- Second row of the tie counterexample: product A, also quantity 5. -/
def rowA : Row :=
  ⟨"o4", "c4", some "Carl", "A", "Toys", "SP", "M", "18-25", some 8, 5, 4⟩

/-- Filter options with an active date range and every other filter neutral. -/
def demoOpts : FilterOptions := ⟨some (0, 10), "All", "All", "All", "All", 0⟩

/-- A two-row table with every column present. -/
def demoTable : Table := ⟨allCols, [demoRow, rowNoName]⟩

/-- A one-row table whose data_pedido column exists but holds only NaT. -/
def nullDateTable : Table := ⟨allCols, [noDateRow]⟩

/-- A table lacking the preco_parcial column. -/
def noRevenueTable : Table := ⟨{ allCols with preco_parcial := false }, [demoRow]⟩

/-- A table lacking the nome_produto column. -/
def noProductTable : Table := ⟨{ allCols with nome_produto := false }, [demoRow]⟩

theorem mem_insertDesc {κ : Type} (p x : κ × ℤ) (l : List (κ × ℤ)) :
    x ∈ insertDesc p l ↔ x = p ∨ x ∈ l := by
  induction l with
  | nil => simp [insertDesc]
  | cons q qs ih =>
      simp only [insertDesc]
      split
      · simp [List.mem_cons]
      · simp only [List.mem_cons, ih]
        tauto

theorem insertDesc_ne_nil {κ : Type} (p : κ × ℤ) (l : List (κ × ℤ)) :
    insertDesc p l ≠ [] := by
  cases l with
  | nil => simp [insertDesc]
  | cons q qs =>
      simp only [insertDesc]
      split <;> simp

theorem mem_sortValsDesc {κ : Type} (x : κ × ℤ) (l : List (κ × ℤ)) :
    x ∈ sortValsDesc l ↔ x ∈ l := by
  induction l with
  | nil => simp [sortValsDesc]
  | cons p ps ih => simp [sortValsDesc, mem_insertDesc, ih]

theorem sortValsDesc_eq_nil_iff {κ : Type} (l : List (κ × ℤ)) :
    sortValsDesc l = [] ↔ l = [] := by
  cases l with
  | nil => simp [sortValsDesc]
  | cons p ps => simp [sortValsDesc, insertDesc_ne_nil]

theorem sorted_insertDesc {κ : Type} (p : κ × ℤ) (l : List (κ × ℤ))
    (h : l.Pairwise (fun a b => b.2 ≤ a.2)) :
    (insertDesc p l).Pairwise (fun a b => b.2 ≤ a.2) := by
  induction l with
  | nil => simp [insertDesc]
  | cons q qs ih =>
      rw [List.pairwise_cons] at h
      obtain ⟨hq, hqs⟩ := h
      simp only [insertDesc]
      split
      · rename_i hle
        rw [List.pairwise_cons]
        refine ⟨?_, List.pairwise_cons.mpr ⟨hq, hqs⟩⟩
        intro y hy
        rcases List.mem_cons.mp hy with rfl | hy2
        · exact hle
        · exact le_trans (hq y hy2) hle
      · rename_i hgt
        push_neg at hgt
        rw [List.pairwise_cons]
        refine ⟨?_, ih hqs⟩
        intro y hy
        rcases (mem_insertDesc p y qs).mp hy with rfl | hy2
        · exact le_of_lt hgt
        · exact hq y hy2

theorem sorted_sortValsDesc {κ : Type} (l : List (κ × ℤ)) :
    (sortValsDesc l).Pairwise (fun a b => b.2 ≤ a.2) := by
  induction l with
  | nil => simp [sortValsDesc]
  | cons p ps ih => exact sorted_insertDesc p _ ih

theorem head_sortValsDesc {κ : Type} {l : List (κ × ℤ)} {p : κ × ℤ} {rest : List (κ × ℤ)}
    (h : sortValsDesc l = p :: rest) :
    p ∈ l ∧ ∀ q ∈ l, q.2 ≤ p.2 := by
  have hs := sorted_sortValsDesc l
  rw [h, List.pairwise_cons] at hs
  constructor
  · exact (mem_sortValsDesc p l).mp (by rw [h]; exact List.mem_cons_self p rest)
  · intro q hq
    have hq2 : q ∈ p :: rest := by rw [← h]; exact (mem_sortValsDesc q l).mpr hq
    rcases List.mem_cons.mp hq2 with rfl | hq3
    · exact le_refl _
    · exact hs.1 q hq3

theorem mem_sortedKeys {κ : Type} [LinearOrder κ] [DecidableEq κ] (key : Row → Option κ)
    (rows : List Row) (k : κ) :
    k ∈ sortedKeys key rows ↔ k ∈ rows.filterMap key := by
  unfold sortedKeys
  rw [(List.perm_insertionSort _ _).mem_iff, List.mem_dedup]

theorem nodup_sortedKeys {κ : Type} [LinearOrder κ] [DecidableEq κ] (key : Row → Option κ)
    (rows : List Row) : (sortedKeys key rows).Nodup := by
  unfold sortedKeys
  exact ((List.perm_insertionSort _ _).nodup_iff).mpr (List.nodup_dedup _)

theorem sorted_lt_sortedKeys {κ : Type} [LinearOrder κ] [DecidableEq κ] (key : Row → Option κ)
    (rows : List Row) : (sortedKeys key rows).Pairwise (· < ·) := by
  have h1 : (sortedKeys key rows).Sorted (· ≤ ·) := List.sorted_insertionSort _ _
  exact h1.lt_of_le (nodup_sortedKeys key rows)

theorem sortedKeys_ne_nil {κ : Type} [LinearOrder κ] [DecidableEq κ] (key : Row → Option κ)
    (rows : List Row) (h : rows.filterMap key ≠ []) : sortedKeys key rows ≠ [] := by
  intro hcontra
  have hlen := (List.perm_insertionSort (α := κ) (· ≤ ·) ((rows.filterMap key).dedup)).length_eq
  rw [show List.insertionSort (α := κ) (· ≤ ·) ((rows.filterMap key).dedup)
      = sortedKeys key rows from rfl, hcontra] at hlen
  have hd : (rows.filterMap key).dedup = [] := List.length_eq_zero.mp hlen.symm
  exact h ((List.dedup_eq_nil _).mp hd)

theorem mem_groupSums {κ : Type} [LinearOrder κ] [DecidableEq κ] {key : Row → Option κ}
    {measure : Row → ℤ} {rows : List Row} {p : κ × ℤ}
    (h : p ∈ groupSums key measure rows) :
    p.1 ∈ rows.filterMap key ∧ p.2 = groupValue key measure rows p.1 := by
  unfold groupSums at h
  obtain ⟨k, hk, rfl⟩ := List.mem_map.mp h
  exact ⟨(mem_sortedKeys key rows k).mp hk, rfl⟩

theorem groupSums_keys_lt {κ : Type} [LinearOrder κ] [DecidableEq κ] (key : Row → Option κ)
    (measure : Row → ℤ) (rows : List Row) :
    (groupSums key measure rows).Pairwise (fun p q => p.1 < q.1) := by
  unfold groupSums
  exact (sorted_lt_sortedKeys key rows).map _ (fun a b h => h)

theorem groupSums_ne_nil {κ : Type} [LinearOrder κ] [DecidableEq κ] (key : Row → Option κ)
    (measure : Row → ℤ) (rows : List Row) (h : rows.filterMap key ≠ []) :
    groupSums key measure rows ≠ [] := by
  unfold groupSums
  intro hcontra
  exact sortedKeys_ne_nil key rows h (List.map_eq_nil_iff.mp hcontra)

theorem topAgg_spec {κ : Type} [LinearOrder κ] [DecidableEq κ] (key : Row → Option κ)
    (measure : Row → ℤ) (rows : List Row) (h : rows.filterMap key ≠ []) :
    ∃ p ∈ groupSums key measure rows,
      topAgg key measure rows = some p ∧ (∃ r ∈ rows, key r = some p.1) ∧
      ∀ q ∈ groupSums key measure rows, q.2 ≤ p.2 := by
  unfold topAgg aggregate
  cases hsv : sortValsDesc (groupSums key measure rows) with
  | nil => exact absurd ((sortValsDesc_eq_nil_iff _).mp hsv) (groupSums_ne_nil key measure rows h)
  | cons p rest =>
      obtain ⟨hmem, hmax⟩ := head_sortValsDesc hsv
      obtain ⟨hk, _⟩ := mem_groupSums hmem
      obtain ⟨r, hr, hkey⟩ := List.mem_filterMap.mp hk
      exact ⟨p, hmem, rfl, ⟨r, hr, hkey⟩, hmax⟩

theorem groupValue_cons {κ : Type} [DecidableEq κ] (key : Row → Option κ) (measure : Row → ℤ)
    (r : Row) (rows : List Row) (k : κ) :
    groupValue key measure (r :: rows) k
      = (if key r = some k then measure r else 0) + groupValue key measure rows k := by
  by_cases h : key r = some k <;> simp [groupValue, List.filter_cons, h]

theorem sum_map_add {κ : Type} (l : List κ) (f g : κ → ℤ) :
    (l.map (fun x => f x + g x)).sum = (l.map f).sum + (l.map g).sum := by
  induction l with
  | nil => simp
  | cons x xs ih =>
      simp only [List.map_cons, List.sum_cons, ih]
      ring

theorem sum_map_ite {κ : Type} [DecidableEq κ] (ks : List κ) (hnd : ks.Nodup) (k0 : κ) (c : ℤ) :
    (ks.map (fun k => if k0 = k then c else 0)).sum = if k0 ∈ ks then c else 0 := by
  induction ks with
  | nil => simp
  | cons k ks ih =>
      rw [List.nodup_cons] at hnd
      by_cases h : k0 = k
      · subst h
        simp only [List.map_cons, List.sum_cons, if_pos rfl, ih hnd.2,
          if_neg hnd.1, List.mem_cons]
        simp
      · simp only [List.map_cons, List.sum_cons, if_neg h, ih hnd.2, List.mem_cons]
        simp [h]

theorem sum_groupValues {κ : Type} [DecidableEq κ] (key : Row → Option κ) (measure : Row → ℤ)
    (ks : List κ) (hnd : ks.Nodup) :
    ∀ rows : List Row, (∀ r ∈ rows, ∀ k, key r = some k → k ∈ ks) →
      (ks.map (groupValue key measure rows)).sum
        = ((rows.filter (fun r => (key r).isSome)).map measure).sum := by
  intro rows
  induction rows with
  | nil =>
      intro _
      have hz : ∀ k ∈ ks, groupValue key measure [] k = 0 := by
        intro k _
        simp [groupValue]
      rw [List.sum_eq_zero]
      · simp
      · intro x hx
        obtain ⟨k, hk, rfl⟩ := List.mem_map.mp hx
        exact hz k hk
  | cons r rows ih =>
      intro hc
      have hc2 : ∀ r2 ∈ rows, ∀ k, key r2 = some k → k ∈ ks :=
        fun r2 h2 => hc r2 (List.mem_cons_of_mem _ h2)
      have hmap : ks.map (groupValue key measure (r :: rows))
          = ks.map (fun k => (if key r = some k then measure r else 0)
              + groupValue key measure rows k) := by
        exact List.map_congr_left (fun k _ => groupValue_cons key measure r rows k)
      rw [hmap, sum_map_add, ih hc2]
      cases hr : key r with
      | none =>
          have h1 : (ks.map (fun k => if (none : Option κ) = some k then measure r else 0)).sum
              = 0 := by
            rw [List.sum_eq_zero]
            intro x hx
            obtain ⟨k, _, rfl⟩ := List.mem_map.mp hx
            simp
          rw [h1, List.filter_cons]
          simp [hr]
      | some k0 =>
          have h1 : (ks.map (fun k => if some k0 = some k then measure r else 0)).sum
              = measure r := by
            have he : ks.map (fun k => if some k0 = some k then measure r else 0)
                = ks.map (fun k => if k0 = k then measure r else 0) := by
              refine List.map_congr_left (fun k _ => ?_)
              simp [Option.some_inj]
            rw [he, sum_map_ite ks hnd k0 (measure r), if_pos (hc r (List.mem_cons_self _ _) k0 hr)]
          rw [h1, List.filter_cons]
          simp [hr]

theorem groupSums_sum_measure {κ : Type} [LinearOrder κ] [DecidableEq κ] (key : Row → Option κ)
    (measure : Row → ℤ) (rows : List Row) :
    ((groupSums key measure rows).map Prod.snd).sum
      = ((rows.filter (fun r => (key r).isSome)).map measure).sum := by
  unfold groupSums
  rw [List.map_map]
  have he : (Prod.snd ∘ fun k => (k, groupValue key measure rows k))
      = groupValue key measure rows := rfl
  rw [he]
  refine sum_groupValues key measure _ (nodup_sortedKeys key rows) rows ?_
  intro r hr k hk
  exact (mem_sortedKeys key rows k).mpr (List.mem_filterMap.mpr ⟨r, hr, hk⟩)

theorem filterMap_total_ne_nil {κ : Type} (f : Row → κ) (rows : List Row) (h : rows ≠ []) :
    rows.filterMap (fun r => some (f r)) ≠ [] := by
  cases rows with
  | nil => exact absurd rfl h
  | cons r rows => simp [List.filterMap_cons]

theorem filter_isSome_total {κ : Type} (f : Row → κ) (rows : List Row) :
    rows.filter (fun r => (some (f r)).isSome) = rows := by
  rw [List.filter_eq_self]
  intro a _
  rfl

theorem stage_filter (c : Bool) (p : Row → Bool) (l : List Row) :
    stage c p l = l.filter (fun r => !c || p r) := by
  cases c <;> simp [stage]

theorem apply_filters_ok (t : Table) (o : FilterOptions) (hp : t.cols.preco_parcial = true) :
    apply_filters t o = Except.ok ⟨t.cols, t.rows.filter (keepRow t o)⟩ := by
  have hb : ∀ a b c d e f : Bool,
      (f && (e && (d && (c && (b && a))))) = (a && b && c && d && e && f) := by decide
  simp only [apply_filters, stage_filter, List.filter_filter, hp, if_true]
  refine congrArg Except.ok (congrArg (Table.mk t.cols) ?_)
  refine List.filter_congr ?_
  intro r _
  simp only [keepRow]
  exact hb _ _ _ _ _ _

theorem any_filter_false (l : List Row) (p q : Row → Bool) (h : l.any q = false) :
    (l.filter p).any q = false := by
  cases hq : (l.filter p).any q with
  | false => rfl
  | true =>
      exfalso
      obtain ⟨x, hx, hqx⟩ := List.any_eq_true.mp hq
      have : l.any q = true := List.any_eq_true.mpr ⟨x, List.mem_of_mem_filter hx, hqx⟩
      rw [h] at this
      exact Bool.false_ne_true this

theorem dateGuard_filter_false (t : Table) (o : FilterOptions) (p : Row → Bool)
    (h : dateGuard t o = false) :
    dateGuard ⟨t.cols, t.rows.filter p⟩ o = false := by
  simp only [dateGuard] at h ⊢
  rcases Bool.and_eq_false_iff.mp h with h1 | h1
  · rcases Bool.and_eq_false_iff.mp h1 with h2 | h2
    · simp [h2]
    · simp [any_filter_false t.rows p _ h2]
  · simp [h1]

theorem keepRow_refilter (t : Table) (o : FilterOptions) (r : Row)
    (hr : r ∈ t.rows.filter (keepRow t o)) :
    keepRow ⟨t.cols, t.rows.filter (keepRow t o)⟩ o r = true := by
  have h1 : keepRow t o r = true := List.of_mem_filter hr
  simp only [keepRow, Bool.and_eq_true] at h1 ⊢
  obtain ⟨⟨⟨⟨⟨hd, h2⟩, h3⟩, h4⟩, h5⟩, h6⟩ := h1
  refine ⟨⟨⟨⟨⟨?_, h2⟩, h3⟩, h4⟩, h5⟩, h6⟩
  cases hg : dateGuard t o with
  | false => simp [dateGuard_filter_false t o _ hg]
  | true =>
      rw [hg] at hd
      simp only [Bool.not_true, Bool.false_or] at hd
      simp [hd]

/-- C1: for every view with the required columns, calculate_kpis returns
exactly the five KPI values: the sum of line revenue, the number of distinct
order ids, the number of distinct customer ids, the sum of quantity, and the
average ticket equal to total revenue over total orders when there are
orders and 0 otherwise, with the division guarded. -/
theorem kpi_formulas (rows : List Row) :
    (calculate_kpis rows).total_revenue = (rows.map (fun r => r.preco_parcial)).sum ∧
    (calculate_kpis rows).total_orders = (rows.map (fun r => r.id_pedido)).toFinset.card ∧
    (calculate_kpis rows).unique_customers = (rows.map (fun r => r.id_cliente)).toFinset.card ∧
    (calculate_kpis rows).total_quantity = (rows.map (fun r => r.quantidade)).sum ∧
    (calculate_kpis rows).avg_ticket =
      (if 0 < (calculate_kpis rows).total_orders
        then ((calculate_kpis rows).total_revenue : ℚ) / ((calculate_kpis rows).total_orders : ℚ)
        else 0) := by
  refine ⟨rfl, ?_, ?_, rfl, rfl⟩ <;> simp [calculate_kpis, List.card_toFinset]

/-- C4: on a view with zero rows but the required columns present, the KPI
calculator returns all-zero KPIs and the insight calculator returns the
(N/A, 0) sentinel for every insight, and neither operation fails. -/
theorem empty_view_sentinels :
    calculate_kpis [] = ⟨0, 0, 0, 0, 0⟩ ∧
    calculate_insights [] = ⟨"N/A", 0, "N/A", 0, "N/A", 0, "N/A", 0, "N/A", 0⟩ ∧
    ∀ c : Cols, (c.preco_parcial && c.id_pedido && c.id_cliente && c.quantidade) = true →
      requiredInsightCols c = true →
      calculate_kpisE ⟨c, []⟩ = Except.ok ⟨0, 0, 0, 0, 0⟩ ∧
      calculate_insightsE ⟨c, []⟩
        = Except.ok ⟨"N/A", 0, "N/A", 0, "N/A", 0, "N/A", 0, "N/A", 0⟩ := by
  refine ⟨by decide, by decide, ?_⟩
  intro c h1 h2
  constructor
  · simp only [calculate_kpisE, h1, if_true]
    exact congrArg Except.ok (by decide)
  · simp only [calculate_insightsE, h2, if_true]
    exact congrArg Except.ok (by decide)

/-- Witness for C4 at the concrete all-columns-present empty table. -/
theorem empty_view_sentinels_witness :
    ((allCols.preco_parcial && allCols.id_pedido && allCols.id_cliente && allCols.quantidade)
        = true ∧ requiredInsightCols allCols = true) ∧
    (calculate_kpisE ⟨allCols, []⟩ = Except.ok ⟨0, 0, 0, 0, 0⟩ ∧
      calculate_insightsE ⟨allCols, []⟩
        = Except.ok ⟨"N/A", 0, "N/A", 0, "N/A", 0, "N/A", 0, "N/A", 0⟩) :=
  ⟨⟨by decide, by decide⟩, empty_view_sentinels.2.2 allCols (by decide) (by decide)⟩

/-- C7: when a grouping dimension column required by the insight calculator
is absent from the view, the computation signals the missing-column failure
instead of silently producing an empty group sequence, and the aggregation
entry point does the same for any ungrounded dimension. -/
theorem missing_dimension_error : ∀ t : Table,
    (t.cols.nome_produto = false ∨ t.cols.categoria = false ∨ t.cols.uf = false ∨
      t.cols.faixa_etaria = false ∨ t.cols.nome_completo = false) →
    (calculate_insightsE t = Except.error Err.missingColumn ∧
      ∀ (key : Row → Option (List Char)) (measure : Row → ℤ),
        aggregateE false key measure t.rows = Except.error Err.missingColumn) := by
  intro t h
  constructor
  · have hreq : requiredInsightCols t.cols = false := by
      simp only [requiredInsightCols]
      rcases h with h | h | h | h | h <;> simp [h]
    simp [calculate_insightsE, hreq]
  · intro key measure
    rfl

/-- Witness for C7 at a concrete table lacking the product column. -/
theorem missing_dimension_error_witness :
    noProductTable.cols.nome_produto = false ∧
    calculate_insightsE noProductTable = Except.error Err.missingColumn :=
  ⟨rfl, (missing_dimension_error noProductTable (Or.inl rfl)).1⟩

/-- C10: a table lacking the line-revenue column makes the filter pipeline
fail even with the neutral threshold, because the minimum-revenue mask has no
column-presence guard, while a table with the column never makes the pipeline
fail no matter which other columns are absent. -/
theorem min_revenue_unguarded : ∀ (t : Table) (o : FilterOptions),
    (t.cols.preco_parcial = false → apply_filters t o = Except.error Err.missingColumn) ∧
    (t.cols.preco_parcial = true → ∃ v, apply_filters t o = Except.ok v) := by
  intro t o
  constructor
  · intro h
    simp [apply_filters, h]
  · intro h
    exact ⟨_, apply_filters_ok t o h⟩

/-- Witness for C10 at a concrete table lacking preco_parcial and a zero
threshold. -/
theorem min_revenue_unguarded_witness :
    noRevenueTable.cols.preco_parcial = false ∧ demoOpts.min_revenue = 0 ∧
    apply_filters noRevenueTable demoOpts = Except.error Err.missingColumn :=
  ⟨rfl, rfl, (min_revenue_unguarded noRevenueTable demoOpts).1 rfl⟩

/-- C3 counterexample: a table whose data_pedido column is present but
entirely null, with an active date range.  The claim says the rows with a
missing date are excluded (the filter is skipped only when the column is
absent), but the pipeline skips the date filter and keeps the row. -/
theorem filters_date_skip_cex :
    nullDateTable.rows ≠ [] ∧
    nullDateTable.cols.data_pedido = true ∧
    demoOpts.dateRange.isSome = true ∧
    apply_filters nullDateTable demoOpts = Except.ok nullDateTable ∧
    nullDateTable.rows.filter (claimedKeep nullDateTable demoOpts) = [] := by
  decide

/-- C3 amended: with the line-revenue column present, apply_filters returns
exactly the rows satisfying the conjunction of the active options, in their
original order; the date clause is skipped when the date column is absent or
holds no non-null date (keepRow), not only when the column is absent. -/
theorem filters_conjunction (t : Table) (o : FilterOptions)
    (hp : t.cols.preco_parcial = true) :
    apply_filters t o = Except.ok ⟨t.cols, t.rows.filter (keepRow t o)⟩ :=
  apply_filters_ok t o hp

/-- Witness for the amended C3 at a concrete table and options. -/
theorem filters_conjunction_witness :
    demoTable.cols.preco_parcial = true ∧
    apply_filters demoTable demoOpts
      = Except.ok ⟨demoTable.cols, demoTable.rows.filter (keepRow demoTable demoOpts)⟩ :=
  ⟨rfl, filters_conjunction demoTable demoOpts rfl⟩

/-- C6: apply_filters is idempotent and order-preserving: when it succeeds,
re-applying the same options to the result returns the result unchanged, and
the result's rows form a subsequence of the input rows (with the same column
set). -/
theorem filters_idempotent : ∀ (t : Table) (o : FilterOptions) (v : Table),
    apply_filters t o = Except.ok v →
    apply_filters v o = Except.ok v ∧ v.rows.Sublist t.rows ∧ v.cols = t.cols := by
  intro t o v h
  have hp : t.cols.preco_parcial = true := by
    cases hpc : t.cols.preco_parcial with
    | true => rfl
    | false =>
        exfalso
        simp [apply_filters, hpc] at h
  rw [apply_filters_ok t o hp] at h
  have hv := Except.ok.inj h
  subst hv
  refine ⟨?_, List.filter_sublist _, rfl⟩
  rw [apply_filters_ok ⟨t.cols, t.rows.filter (keepRow t o)⟩ o hp]
  refine congrArg Except.ok (congrArg (Table.mk t.cols) ?_)
  exact List.filter_eq_self.mpr (fun r hr => keepRow_refilter t o r hr)

/-- Witness for C6 at a concrete table the options keep unchanged. -/
theorem filters_idempotent_witness :
    apply_filters demoTable demoOpts = Except.ok demoTable ∧
    (apply_filters demoTable demoOpts = Except.ok demoTable ∧
      demoTable.rows.Sublist demoTable.rows ∧ demoTable.cols = demoTable.cols) :=
  ⟨by decide, filters_idempotent demoTable demoOpts demoTable (by decide)⟩

/-- C2 counterexample: a non-empty one-row view whose customer name is null.
The pandas pair groupby drops the row, so the top-customer insight returns
the sentinel, which names no (customer id, customer name) group of the view,
contradicting the claim for arbitrary non-empty views. -/
theorem insights_nonempty_cex :
    ([rowNoName] : List Row) ≠ [] ∧
    (calculate_insights [rowNoName]).top_customer_name = "N/A" ∧
    (calculate_insights [rowNoName]).top_customer_spend = 0 ∧
    ¬ ∃ r ∈ ([rowNoName] : List Row),
        r.nome_completo = some ((calculate_insights [rowNoName]).top_customer_name) := by
  decide

/-- C2 amended: on every non-empty view, each of the four single-column
insights names a group key occurring in the view whose aggregated measure is
maximal; the top-customer insight satisfies the same contract whenever at
least one row has a non-null customer name, and on a view whose customer
names are all null it returns the ("N/A", 0) sentinel instead, because the
pair groupby drops every row. -/
theorem insights_argmax (rows : List Row) (hne : rows ≠ []) :
    CoreInsightsAttainMax rows ∧
    ((∃ r ∈ rows, (custKey r).isSome) → CustomerAttainsMax rows) ∧
    ((∀ r ∈ rows, r.nome_completo = none) →
      (calculate_insights rows).top_customer_name = "N/A" ∧
      (calculate_insights rows).top_customer_spend = 0) := by
  have hprod : rows.filterMap prodKey ≠ [] :=
    filterMap_total_ne_nil (fun r => r.nome_produto.data) rows hne
  have hcat : rows.filterMap catKey ≠ [] :=
    filterMap_total_ne_nil (fun r => r.categoria.data) rows hne
  have huf : rows.filterMap ufKey ≠ [] :=
    filterMap_total_ne_nil (fun r => r.uf.data) rows hne
  have hage : rows.filterMap ageKey ≠ [] :=
    filterMap_total_ne_nil (fun r => r.faixa_etaria.data) rows hne
  refine ⟨⟨?_, ?_, ?_, ?_⟩, ?_, ?_⟩
  · obtain ⟨p, hp, hsome, hocc, hmax⟩ :=
      topAgg_spec prodKey (fun r => r.quantidade) rows hprod
    exact ⟨p, hp, ⟨by simp [calculate_insights, hsome],
      by simp [calculate_insights, hsome]⟩, hocc, hmax⟩
  · obtain ⟨p, hp, hsome, hocc, hmax⟩ :=
      topAgg_spec catKey (fun r => r.preco_parcial) rows hcat
    exact ⟨p, hp, ⟨by simp [calculate_insights, hsome],
      by simp [calculate_insights, hsome]⟩, hocc, hmax⟩
  · obtain ⟨p, hp, hsome, hocc, hmax⟩ :=
      topAgg_spec ufKey (fun r => r.preco_parcial) rows huf
    exact ⟨p, hp, ⟨by simp [calculate_insights, hsome],
      by simp [calculate_insights, hsome]⟩, hocc, hmax⟩
  · obtain ⟨p, hp, hsome, hocc, hmax⟩ :=
      topAgg_spec ageKey (fun r => r.preco_parcial) rows hage
    exact ⟨p, hp, ⟨by simp [calculate_insights, hsome],
      by simp [calculate_insights, hsome]⟩, hocc, hmax⟩
  · intro hname
    have hcust : rows.filterMap custKey ≠ [] := by
      obtain ⟨r, hr, hs⟩ := hname
      obtain ⟨k, hk⟩ := Option.isSome_iff_exists.mp hs
      exact List.ne_nil_of_mem (List.mem_filterMap.mpr ⟨r, hr, hk⟩)
    obtain ⟨p, hp, hsome, hocc, hmax⟩ :=
      topAgg_spec custKey (fun r => r.preco_parcial) rows hcust
    exact ⟨p, hp, ⟨by simp [calculate_insights, hsome],
      by simp [calculate_insights, hsome]⟩, hocc, hmax⟩
  · intro hnull
    have hfm : rows.filterMap custKey = [] := by
      rw [List.filterMap_eq_nil_iff]
      intro r hr
      simp [custKey, hnull r hr]
    have htop : topAgg custKey (fun r => r.preco_parcial) rows = none := by
      unfold topAgg aggregate groupSums sortedKeys
      rw [hfm]
      rfl
    constructor <;> simp [calculate_insights, htop]

/-- Witness for the amended C2: the whole-view contract and the conditional
customer contract at a one-row view with a named customer, and the sentinel
clause at a one-row view whose only name is null. -/
theorem insights_argmax_witness :
    (([demoRow] : List Row) ≠ [] ∧ ∃ r ∈ ([demoRow] : List Row), (custKey r).isSome) ∧
    (CoreInsightsAttainMax [demoRow] ∧ CustomerAttainsMax [demoRow]) ∧
    (([rowNoName] : List Row) ≠ [] ∧ ∀ r ∈ ([rowNoName] : List Row), r.nome_completo = none) ∧
    ((calculate_insights [rowNoName]).top_customer_name = "N/A" ∧
      (calculate_insights [rowNoName]).top_customer_spend = 0) :=
  ⟨⟨by decide, by decide⟩,
    ⟨(insights_argmax [demoRow] (by decide)).1,
      (insights_argmax [demoRow] (by decide)).2.1 (by decide)⟩,
    ⟨by decide, by decide⟩,
    (insights_argmax [rowNoName] (by decide)).2.2 (by decide)⟩

/-- C5 counterexample: two rows, products B then A in view order, tied at
quantity 5.  The claim predicts the tie resolves to the first-encountered
group (B), but the groupby orders keys ascending before the value sort, so
the ranking is A before B and the insight selects A. -/
theorem tie_break_cex :
    (([rowB, rowA] : List Row).map (fun r => r.nome_produto)) = ["B", "A"] ∧
    firstSeenMaxKey prodKey (fun r => r.quantidade) [rowB, rowA] = some "B".data ∧
    aggregate prodKey (fun r => r.quantidade) [rowB, rowA]
      = [("A".data, 5), ("B".data, 5)] ∧
    (calculate_insights [rowB, rowA]).best_selling_product = "A" ∧
    ("A" : String) ≠ "B" := by
  decide

/-- C5 amended: every ranked aggregation and any top-N prefix of it is
ordered descending by measure value; the tie order is not the
first-encountered one (the groupby emits keys ascending before the value
sort, and beyond descending-by-value the relative order of tied groups is an
implementation detail of the unstable default sort that the program does not
fix); the head of the ranking, which each insight selects, is a group
attaining the maximal measure, as stated for the best-selling-product
insight of calculate_insights. -/
theorem aggregate_order :
    (∀ {κ : Type} [LinearOrder κ] [DecidableEq κ] (key : Row → Option κ)
        (measure : Row → ℤ) (rows : List Row),
      (aggregate key measure rows).Pairwise (fun p q => q.2 ≤ p.2) ∧
      (∀ n, (top_n n key measure rows).Pairwise (fun p q => q.2 ≤ p.2)) ∧
      (∀ p ∈ topAgg key measure rows,
        p ∈ groupSums key measure rows ∧ ∀ q ∈ groupSums key measure rows, q.2 ≤ p.2)) ∧
    ∀ rows : List Row, rows ≠ [] →
      ∃ p ∈ groupSums prodKey (fun r => r.quantidade) rows,
        (calculate_insights rows).best_selling_product = String.mk p.1 ∧
        (calculate_insights rows).best_selling_quantity = p.2 ∧
        ∀ q ∈ groupSums prodKey (fun r => r.quantidade) rows, q.2 ≤ p.2 := by
  constructor
  · intro κ _ _ key measure rows
    have h := sorted_sortValsDesc (groupSums key measure rows)
    refine ⟨h, fun n => List.Pairwise.sublist (List.take_sublist n _) h, ?_⟩
    intro p hp
    rw [Option.mem_def] at hp
    cases hsv : sortValsDesc (groupSums key measure rows) with
    | nil =>
        rw [show topAgg key measure rows
            = (sortValsDesc (groupSums key measure rows)).head? from rfl, hsv] at hp
        exact absurd hp (by simp)
    | cons q rest =>
        rw [show topAgg key measure rows
            = (sortValsDesc (groupSums key measure rows)).head? from rfl, hsv] at hp
        have hq : q = p := by simpa using hp
        subst hq
        exact head_sortValsDesc hsv
  · intro rows hne
    have hprod : rows.filterMap prodKey ≠ [] :=
      filterMap_total_ne_nil (fun r => r.nome_produto.data) rows hne
    obtain ⟨p, hp, hsome, _, hmax⟩ :=
      topAgg_spec prodKey (fun r => r.quantidade) rows hprod
    exact ⟨p, hp, by simp [calculate_insights, hsome],
      by simp [calculate_insights, hsome], hmax⟩

/-- Witness for the amended C5 at the concrete tied two-row view. -/
theorem aggregate_order_witness :
    (("A".data, (5 : ℤ)) ∈ topAgg prodKey (fun r => r.quantidade) [rowB, rowA]) ∧
    (("A".data, (5 : ℤ)) ∈ groupSums prodKey (fun r => r.quantidade) [rowB, rowA] ∧
      ∀ q ∈ groupSums prodKey (fun r => r.quantidade) [rowB, rowA],
        q.2 ≤ ("A".data, (5 : ℤ)).2) ∧
    (([rowB, rowA] : List Row) ≠ []) ∧
    (∃ p ∈ groupSums prodKey (fun r => r.quantidade) [rowB, rowA],
      (calculate_insights [rowB, rowA]).best_selling_product = String.mk p.1 ∧
      (calculate_insights [rowB, rowA]).best_selling_quantity = p.2 ∧
      ∀ q ∈ groupSums prodKey (fun r => r.quantidade) [rowB, rowA], q.2 ≤ p.2) :=
  ⟨by decide,
    (aggregate_order.1 prodKey (fun r => r.quantidade) [rowB, rowA]).2.2
      ("A".data, (5 : ℤ)) (by decide),
    by decide,
    aggregate_order.2 [rowB, rowA] (by decide)⟩

/-- C8 counterexample: a one-row view with a null customer name.  Grouping
by the (id, name) pair drops the row, so the grouped sums add to 0 while the
ungrouped total revenue is 7: the round-trip identity fails for a dimension
whose key can be null. -/
theorem group_total_cex :
    ((groupSums custKey (fun r => r.preco_parcial) [rowNoName]).map Prod.snd).sum = 0 ∧
    (calculate_kpis [rowNoName]).total_revenue = 7 ∧ ((0 : ℤ) ≠ 7) := by
  decide

/-- C8 amended: grouped measure sums add up to the total measure over the
rows whose group key is non-null; for every total dimension (each
fillna-backed categorical column and the id columns) that is the whole
view, giving exactly the total_revenue and total_quantity KPIs. -/
theorem group_total_roundtrip (rows : List Row) :
    (∀ {κ : Type} [LinearOrder κ] [DecidableEq κ] (key : Row → Option κ)
        (measure : Row → ℤ),
      ((groupSums key measure rows).map Prod.snd).sum
        = ((rows.filter (fun r => (key r).isSome)).map measure).sum) ∧
    (∀ {κ : Type} [LinearOrder κ] [DecidableEq κ] (dim : Row → κ),
      ((groupSums (fun r => some (dim r)) (fun r => r.preco_parcial) rows).map Prod.snd).sum
        = (calculate_kpis rows).total_revenue) ∧
    (∀ {κ : Type} [LinearOrder κ] [DecidableEq κ] (dim : Row → κ),
      ((groupSums (fun r => some (dim r)) (fun r => r.quantidade) rows).map Prod.snd).sum
        = (calculate_kpis rows).total_quantity) := by
  refine ⟨?_, ?_, ?_⟩
  · intro κ _ _ key measure
    exact groupSums_sum_measure key measure rows
  · intro κ _ _ dim
    rw [groupSums_sum_measure]
    rw [filter_isSome_total]
    rfl
  · intro κ _ _ dim
    rw [groupSums_sum_measure]
    rw [filter_isSome_total]
    rfl

/-- C9: a row with a null customer name is silently excluded from the
top-customer grouping - the customer group sums, and with them the
top-customer insight, are unchanged by the row - while the same row still
counts toward the KPIs and toward its product group. -/
theorem null_name_excluded (rows : List Row) (r0 : Row) (h : r0.nome_completo = none) :
    groupSums custKey (fun r => r.preco_parcial) (r0 :: rows)
      = groupSums custKey (fun r => r.preco_parcial) rows ∧
    (calculate_insights (r0 :: rows)).top_customer_name
      = (calculate_insights rows).top_customer_name ∧
    (calculate_insights (r0 :: rows)).top_customer_spend
      = (calculate_insights rows).top_customer_spend ∧
    (calculate_kpis (r0 :: rows)).total_revenue
      = r0.preco_parcial + (calculate_kpis rows).total_revenue ∧
    (calculate_kpis (r0 :: rows)).total_quantity
      = r0.quantidade + (calculate_kpis rows).total_quantity ∧
    groupValue prodKey (fun r => r.quantidade) (r0 :: rows) r0.nome_produto.data
      = r0.quantidade + groupValue prodKey (fun r => r.quantidade) rows r0.nome_produto.data := by
  have hkey : custKey r0 = none := by simp [custKey, h]
  have hgs : groupSums custKey (fun r => r.preco_parcial) (r0 :: rows)
      = groupSums custKey (fun r => r.preco_parcial) rows := by
    have hsk : sortedKeys custKey (r0 :: rows) = sortedKeys custKey rows := by
      unfold sortedKeys
      simp [List.filterMap_cons, hkey]
    unfold groupSums
    rw [hsk]
    refine List.map_congr_left (fun k _ => ?_)
    have hv : groupValue custKey (fun r => r.preco_parcial) (r0 :: rows) k
        = groupValue custKey (fun r => r.preco_parcial) rows k := by
      rw [groupValue_cons]
      simp [hkey]
    rw [hv]
  refine ⟨hgs, ?_, ?_, ?_, ?_, ?_⟩
  · simp only [calculate_insights, topAgg, aggregate, hgs]
  · simp only [calculate_insights, topAgg, aggregate, hgs]
  · simp [calculate_kpis]
  · simp [calculate_kpis]
  · rw [groupValue_cons]
    simp [prodKey]

/-- Witness for C9 at a concrete null-name row placed in front of a one-row
view. -/
theorem null_name_excluded_witness :
    rowNoName.nome_completo = none ∧
    groupSums custKey (fun r => r.preco_parcial) [rowNoName, demoRow]
      = groupSums custKey (fun r => r.preco_parcial) [demoRow] ∧
    (calculate_kpis [rowNoName, demoRow]).total_revenue
      = rowNoName.preco_parcial + (calculate_kpis [demoRow]).total_revenue :=
  ⟨rfl, (null_name_excluded [demoRow] rowNoName rfl).1,
    (null_name_excluded [demoRow] rowNoName rfl).2.2.2.1⟩
